import Mathlib

/-!
Shallow embedding of the `willie/serve` repository (Go): the markdown
renderer `serveMarkdown`, the diagnostic log filter `logFilter.Write`
(both the serve.go and the tshello.go variant), the request handlers,
the Local-mode port persistence logic, and the Secured-mode readiness
poller.  Strings are modelled at character granularity (the Go code
indexes bytes; the two coincide on ASCII inputs, which is what every
hard-coded pattern in the source is).  Timestamps are modelled as
natural numbers counting nanoseconds, matching Go `time.Duration`
arithmetic on monotone clocks.
-/

namespace Serve

/-! Section: string primitives (character-list based, mirroring Go `strings`) -/

/-- ASCII lower-casing of one character, as `strings.ToLower` acts on ASCII. -/
def asciiLower (c : Char) : Char :=
  if 'A' ≤ c ∧ c ≤ 'Z' then Char.ofNat (c.toNat + 32) else c

/-- Lower-case a character list (Go `strings.ToLower`, ASCII fragment). -/
def lowerL (l : List Char) : List Char := l.map asciiLower

/-- Substring test on character lists: Go `strings.Contains`. -/
def containsL (sub : List Char) : List Char → Bool
  | [] => sub.isEmpty
  | c :: t => sub.isPrefixOf (c :: t) || containsL sub t

/-- Go `strings.Contains(s, sub)`. -/
def strContains (s sub : String) : Bool := containsL sub.data s.data

/-- Go `strings.HasSuffix(s, suf)`. -/
def strHasSuffix (s suf : String) : Bool := suf.data.isSuffixOf s.data

/-- Split a character list on the slash character, keeping empty segments
(Go `strings.Split(s, "/")` restricted to what `path.Clean` consumes). -/
def splitSlash : List Char → List (List Char)
  | [] => [[]]
  | c :: rest =>
    if c = '/' then [] :: splitSlash rest
    else
      match splitSlash rest with
      | h :: t => (c :: h) :: t
      | [] => [[c]]

/-- Join segments with slashes (inverse direction of `splitSlash`). -/
def joinSlash : List (List Char) → List Char
  | [] => []
  | [s] => s
  | s :: rest => s ++ '/' :: joinSlash rest

/-- The element-processing loop of Go `path.Clean`: `out` is the stack of
kept segments in reverse order.  A `..` pops a poppable segment, is dropped
at the root of a rooted path, and is kept when a relative path cannot
backtrack further (then the top of `out` is itself `..`). -/
def cleanLoop (rooted : Bool) : List (List Char) → List (List Char) → List (List Char)
  | out, [] => out.reverse
  | out, seg :: rest =>
    if seg = [] ∨ seg = ['.'] then cleanLoop rooted out rest
    else if seg = ['.', '.'] then
      match out with
      | top :: out2 =>
        if top = ['.', '.'] then cleanLoop rooted (seg :: top :: out2) rest
        else cleanLoop rooted out2 rest
      | [] => if rooted then cleanLoop rooted [] rest else cleanLoop rooted [seg] rest
    else cleanLoop rooted (seg :: out) rest

/-- Go `path.Clean` (equally `filepath.Clean` on a Unix separator),
segment-based formulation over character lists. -/
def goCleanL (p : List Char) : List Char :=
  if p = [] then ['.']
  else
    let rooted := p.head? = some '/'
    let joined := joinSlash (cleanLoop rooted [] (splitSlash p))
    if rooted then '/' :: joined
    else if joined = [] then ['.'] else joined

/-- Go `strings.TrimPrefix(path, "/")`: drop one leading slash if present. -/
def dropLeadSlash : List Char → List Char
  | '/' :: rest => rest
  | p => p

/-- The cleaned relative path computed by `serveMarkdown`:
`filepath.Clean(strings.TrimPrefix(path, "/"))`. -/
def cleanedPath (path : String) : String := ⟨goCleanL (dropLeadSlash path.data)⟩

/-- Go `strings.HasPrefix(clean, "..")`: a character-level test, not a
path-component test. -/
def startsDotDot (s : String) : Bool := ['.', '.'].isPrefixOf s.data

/-- The extension test of `serveMarkdown`:
`strings.HasSuffix(strings.ToLower(path), ".md")`. -/
def isMdPath (path : String) : Bool := ['.', 'm', 'd'].isSuffixOf (lowerL path.data)

/-- Go `filepath.Base` (Unix): strip trailing slashes, keep the part after
the last remaining slash; all-slash input gives "/", empty input gives ".". -/
def goBase (p : String) : String :=
  if p.data = [] then "."
  else
    let q := (p.data.reverse.dropWhile (fun c => c = '/')).reverse
    let b := (q.reverse.takeWhile (fun c => c ≠ '/')).reverse
    if b = [] then "/" else ⟨b⟩

/-- Go `strings.Cut(s, ".")` first component, as used by `firstLabel`. -/
def firstLabel (s : String) : String := ⟨s.data.takeWhile (fun c => c ≠ '.')⟩

/-- Go `strings.TrimSuffix(s, ".")`: drop one trailing dot if present. -/
def trimDotSuffix (s : String) : String :=
  if ['.'].isSuffixOf s.data then ⟨s.data.dropLast⟩ else s

/-- ASCII white space as trimmed by Go `strings.TrimSpace`. -/
def goIsSpace (c : Char) : Bool :=
  c = ' ' ∨ c = '\t' ∨ c = '\n' ∨ c = '\x0b' ∨ c = '\x0c' ∨ c = '\r'

/-- Go `strings.TrimSpace` (ASCII fragment). -/
def goTrimSpace (s : String) : String :=
  ⟨((s.data.dropWhile goIsSpace).reverse.dropWhile goIsSpace).reverse⟩

/-! Section: the markdown renderer `serveMarkdown` (tshello.go, markdown variant)

The file system (`os.ReadFile`) and the goldmark converter (`md.Convert`)
are the external collaborators of `serveMarkdown`; they are passed in as
functions returning `Option` (with `none` for the error case).  The
template execution is modelled structurally: a rendered page is the triple
of the data fed to `mdTemplate.Execute` (title, converted HTML, injected
custom CSS). -/

/-- Outcome of one `serveMarkdown` call.  `passthrough` is `return false`
(the static file server runs); the other two constructors are the
`return true` paths. -/
inductive MdResult where
  /-- The renderer declined; the static primitive serves the path. -/
  | passthrough : MdResult
  /-- Result of `http.Error(w, msg, code)`. -/
  | serverError (msg : String) (code : Nat) : MdResult
  /-- Execution of `mdTemplate` with this title, converted body and CSS. -/
  | rendered (title html css : String) : MdResult
deriving DecidableEq

/-- Model of `serveMarkdown(w, r, path)`.  `fs` is `os.ReadFile`, `conv`
is `md.Convert`, `css` is the process-global `customCSS`, `raw` is
`r.URL.Query().Has("raw")`. -/
def serveMarkdown (fs conv : String → Option String) (css : String)
    (path : String) (raw : Bool) : MdResult :=
  if isMdPath path = false then .passthrough
  else if raw then .passthrough
  else if startsDotDot (cleanedPath path) then .passthrough
  else
    match fs (cleanedPath path) with
    | none => .passthrough
    | some content =>
      match conv content with
      | none => .serverError "failed to render markdown" 500
      | some html => .rendered (goBase path) html css

/-! Section: request handlers

`Identity` models a successful `WhoIsResponse` ({LoginName, ComputedName});
identity resolution failure is `none`.  The static primitive
`http.FileServer` is abstracted as a function from the path to the bytes
it would serve. -/

/-- A resolved identity: `UserProfile.LoginName` and `Node.ComputedName`. -/
structure Identity where
  login : String
  device : String
deriving DecidableEq

/-- Response of the markdown-variant handler (tshello.go, second part):
either the static file server ran, or `serveMarkdown` claimed the request. -/
inductive HandlerResp where
  /-- Body produced by `fs.ServeHTTP`. -/
  | static (body : String) : HandlerResp
  /-- Error response written by the renderer. -/
  | mdError (msg : String) (code : Nat) : HandlerResp
  /-- The rendered markdown page (title, converted HTML, injected CSS). -/
  | mdPage (title html css : String) : HandlerResp
deriving DecidableEq

/-- The access-log line the markdown-variant handler emits for one request:
`r.URL.Path` in local mode, else `"? <path>"` on resolution failure and
`"<login> (<firstLabel device>) <path>"` on success. -/
def mdHandlerLog (localMode : Bool) (who : Option Identity) (path : String) : String :=
  if localMode then path
  else
    match who with
    | none => "? " ++ path
    | some w => w.login ++ " (" ++ firstLabel w.device ++ ") " ++ path

/-- The markdown-variant request handler (tshello.go, second part): log one
access line, then try `serveMarkdown`, falling through to the static
primitive when it declines.  Returns (log lines emitted, response). -/
def mdHandler (localMode : Bool) (who : Option Identity)
    (fs conv : String → Option String) (css : String)
    (fsResp : String → String) (path : String) (raw : Bool) :
    List String × HandlerResp :=
  ([mdHandlerLog localMode who path],
    match serveMarkdown fs conv css path raw with
    | .passthrough => .static (fsResp path)
    | .serverError m c => .mdError m c
    | .rendered t h c => .mdPage t h c)

/-- The serve.go (first part) request handler: log one `"access: ..."` line
(`"access: unknown user (<err>) <path>"` on resolution failure) and always
delegate to the static primitive.  Returns (log lines emitted, body). -/
def serveHandler (localMode : Bool) (who : Option Identity) (errText : String)
    (fsResp : String → String) (path : String) : List String × String :=
  if localMode then (["access: " ++ path], fsResp path)
  else
    match who with
    | none => (["access: unknown user (" ++ errText ++ ") " ++ path], fsResp path)
    | some w =>
      (["access: " ++ w.login ++ " (" ++ firstLabel w.device ++ ") " ++ path],
        fsResp path)

/-! Section: the diagnostic log filter `logFilter`

`logFilter.Write` is modelled as a pure state transition: the mutable
fields `{lastAuth, auth}` come in and go out explicitly, and the current
clock reading (`time.Now()`, used by `time.Since`) is a parameter.
Timestamps are nanoseconds.  `os.Stderr.Write(p)` is modelled as accepting
the whole buffer, `(len(p), nil)`; under that reading every branch of the
Go function returns `len(p)` and a nil error. -/

/-- The mutable state of a `logFilter`. -/
structure FilterState where
  lastAuth : Nat
  auth : Bool
deriving DecidableEq

/-- The zero value of `logFilter` installed by `log.SetOutput(new(logFilter))`. -/
def filterStart : FilterState := ⟨0, false⟩

/-- Result of one `Write` call: the returned byte count and error, whether
the line was written to stderr, and the successor state. -/
structure WriteResult where
  n : Nat
  err : Option String
  emitted : Bool
  state : FilterState
deriving DecidableEq

/-- One minute in nanoseconds (`1*time.Minute`). -/
def minuteNs : Nat := 60000000000

/-- The access-line test of the tshello-variant filter: a message longer
than the 20-character timestamp whose payload starts with a slash, starts
with `"? "`, or contains `") /"`. -/
def isAccessLine (s : List Char) : Bool :=
  if s.length > 20 then
    let msg := s.drop 20
    (msg.head? = some '/') || ['?', ' '].isPrefixOf msg || containsL [')', ' ', '/'] msg
  else false

/-- The explicit whitelist of the tshello-variant filter. -/
def isWhitelisted (s : String) : Bool :=
  strContains s " at http" || strContains s "bind: " ||
    strContains s "error" || strContains s "fail"

/-- The auth-prompt marker both filter variants throttle on. -/
def isAuthMsg (s : String) : Bool := strContains s "To start this tsnet server"

/-- Model of `logFilter.Write` of the tshello.go markdown variant: whitelisted lines
pass, auth prompts are throttled (shown when the flag is unset or strictly
more than one minute elapsed since the last shown one, which resets the
timestamp), everything else is silenced. -/
def logWrite (f : FilterState) (t : Nat) (s : String) : WriteResult :=
  if isAccessLine s.data then ⟨s.length, none, true, f⟩
  else if isWhitelisted s then ⟨s.length, none, true, f⟩
  else if isAuthMsg s then
    if f.auth = false ∨ minuteNs < t - f.lastAuth then ⟨s.length, none, true, ⟨t, true⟩⟩
    else ⟨s.length, none, false, f⟩
  else ⟨s.length, none, false, f⟩

/-- The explicit whitelist of the serve.go-variant filter. -/
def serveWhitelisted (s : String) : Bool :=
  strContains s "serving . at" || strContains s "access: " ||
    strContains s "bind: " || strContains s "error" || strContains s "fail"

/-- Model of `logFilter.Write` of the serve.go first-part variant: same shape as
`logWrite` but with the `"serving . at"`/`"access: "` whitelist and no
timestamp-positional access test. -/
def serveLogWrite (f : FilterState) (t : Nat) (s : String) : WriteResult :=
  if serveWhitelisted s then ⟨s.length, none, true, f⟩
  else if isAuthMsg s then
    if f.auth = false ∨ minuteNs < t - f.lastAuth then ⟨s.length, none, true, ⟨t, true⟩⟩
    else ⟨s.length, none, false, f⟩
  else ⟨s.length, none, false, f⟩

/-- Feed a sequence of timestamped lines through the tshello-variant
filter, collecting which ones were written to stderr. -/
def runFilter (f : FilterState) : List (Nat × String) → List Bool
  | [] => []
  | (t, s) :: rest =>
    let r := logWrite f t s
    r.emitted :: runFilter r.state rest

/-- Reference throttle on bare timestamps: the first line is shown;
afterwards a line is shown exactly when strictly more than one minute has
passed since the last shown line, and showing resets the remembered time. -/
def throttleSpec : Option Nat → List Nat → List Bool
  | _, [] => []
  | none, t :: ts => true :: throttleSpec (some t) ts
  | some last, t :: ts =>
    if minuteNs < t - last then true :: throttleSpec (some t) ts
    else false :: throttleSpec (some last) ts

/-- The throttle as the claim words it ("suppressed unless at least 60
seconds have elapsed"): shown when one minute or more has passed. -/
def claimedThrottle : Option Nat → List Nat → List Bool
  | _, [] => []
  | none, t :: ts => true :: claimedThrottle (some t) ts
  | some last, t :: ts =>
    if minuteNs ≤ t - last then true :: claimedThrottle (some t) ts
    else false :: claimedThrottle (some last) ts

/-! Section: Local-mode port persistence (tshello.go markdown variant, main) -/

/-- Outcome of the Local-mode startup path: the address handed to
`net.Listen` and the bytes written back to the `port` state file. -/
structure LocalStart where
  bindAddr : String
  savedPort : String
deriving DecidableEq

/-- The Local-mode port logic: the `-port` flag (defaulting to "8080") is
overridden by the trimmed remembered file exactly when the flag was not
explicitly set and the file read succeeds; the chosen port is bound and
written back.  Modelled for startups whose bind succeeds (a failing bind
is fatal). -/
def localStartup (portFlag : Option String) (saved : Option String) : LocalStart :=
  let port0 := match portFlag with | some v => v | none => "8080"
  let port :=
    match portFlag, saved with
    | none, some s => goTrimSpace s
    | _, _ => port0
  ⟨":" ++ port, port⟩

/-! Section: the Secured-mode readiness poller (tshello.go markdown variant)

The goroutine polls `lc.Status` every 500 ms under a 60-second timeout
context.  The status stream is a function from the poll index to
`none` (error, in particular after context expiry) or
`some (BackendState, DNSName)`.  The timeout bounds the loop to
`60 s / 500 ms = 120` status observations, which is the structural fuel of
the model; exhausting it is the `ctx.Done()` branch. -/

/-- Terminal outcome of the readiness poller. -/
inductive PollOutcome where
  /-- A "Running" state was observed and this URL was logged/announced. -/
  | running (url : String) : PollOutcome
  /-- The 60-second context expired; a timeout diagnostic was logged and
  the goroutine returned, leaving the server running. -/
  | timeout : PollOutcome
deriving DecidableEq

/-- Whether one status observation is a successful "Running" report. -/
def statusRunning : Option (String × String) → Bool
  | some (bs, _) => bs = "Running"
  | none => false

/-- The DNS name carried by a status observation. -/
def dnsOf : Option (String × String) → String
  | some (_, d) => d
  | none => ""

/-- Poll interval in milliseconds (`500 * time.Millisecond`). -/
def pollIntervalMs : Nat := 500

/-- Poller timeout in milliseconds (`60 * time.Second`). -/
def pollTimeoutMs : Nat := 60000

/-- Number of status observations the timeout admits. -/
def pollWindow : Nat := pollTimeoutMs / pollIntervalMs

/-- The polling loop: at each step consult the status at the current index;
a "Running" report stops with the announced URL
`"https://" ++ TrimSuffix(DNSName, ".")`; otherwise sleep and continue
until the fuel (the timeout) is exhausted. -/
def pollLoop (status : Nat → Option (String × String)) : Nat → Nat → PollOutcome
  | _, 0 => .timeout
  | i, fuel + 1 =>
    match status i with
    | some (bs, dns) =>
      if bs = "Running" then .running ("https://" ++ trimDotSuffix dns)
      else pollLoop status (i + 1) fuel
    | none => pollLoop status (i + 1) fuel

/-- The whole readiness goroutine. -/
def runPoll (status : Nat → Option (String × String)) : PollOutcome :=
  pollLoop status 0 pollWindow

/-- A concrete tsnet auth-prompt diagnostic line, used as a test vector for
the throttle. -/
def authLine : String := "To start this tsnet server, restart with TS_AUTHKEY set"

/-! Section: helper lemmas about the string primitives -/

/-- A prefix of a list is a prefix of any right-extension of it. -/
theorem isPre_append (sub l1 l2 : List Char) (h : sub.isPrefixOf l1 = true) :
    sub.isPrefixOf (l1 ++ l2) = true := by
  induction sub generalizing l1 with
  | nil => cases l1 ++ l2 <;> rfl
  | cons c cs ih =>
    cases l1 with
    | nil => simp [List.isPrefixOf] at h
    | cons d ds =>
      simp only [List.isPrefixOf, Bool.and_eq_true] at h
      simp only [List.cons_append, List.isPrefixOf, Bool.and_eq_true]
      exact ⟨h.1, ih ds h.2⟩

/-- The empty pattern occurs in every list. -/
theorem containsL_nil (l : List Char) : containsL [] l = true := by
  cases l with
  | nil => rfl
  | cons c t => simp [containsL, List.isPrefixOf]

/-- A pattern that is a prefix occurs as a substring. -/
theorem containsL_of_isPre (sub l : List Char) (h : sub.isPrefixOf l = true) :
    containsL sub l = true := by
  cases l with
  | nil =>
    cases sub with
    | nil => rfl
    | cons c cs => simp [List.isPrefixOf] at h
  | cons c t => simp [containsL, h]

/-- Substring occurrence survives appending on the right. -/
theorem containsL_append_left (sub l1 l2 : List Char) (h : containsL sub l1 = true) :
    containsL sub (l1 ++ l2) = true := by
  induction l1 with
  | nil =>
    have hs : sub = [] := by
      cases sub with
      | nil => rfl
      | cons c cs => simp [containsL, List.isEmpty] at h
    subst hs
    exact containsL_nil l2
  | cons c t ih =>
    simp only [containsL, Bool.or_eq_true] at h
    rcases h with h | h
    · exact containsL_of_isPre sub ((c :: t) ++ l2) (by
        simpa using isPre_append sub (c :: t) l2 h)
    · simp only [List.cons_append, containsL, Bool.or_eq_true]
      exact Or.inr (ih h)

/-- Substring occurrence survives appending on the left. -/
theorem containsL_append_right (sub l1 l2 : List Char) (h : containsL sub l2 = true) :
    containsL sub (l1 ++ l2) = true := by
  induction l1 with
  | nil => simpa using h
  | cons c t ih =>
    simp only [List.cons_append, containsL, Bool.or_eq_true]
    exact Or.inr ih

/-- String append acts componentwise on the character data. -/
theorem strData_append (s t : String) : (s ++ t).data = s.data ++ t.data := rfl

/-- Go `strings.Contains` survives appending on the right. -/
theorem strContains_append_left (s t sub : String) (h : strContains s sub = true) :
    strContains (s ++ t) sub = true := by
  unfold strContains at h ⊢
  rw [strData_append]
  exact containsL_append_left sub.data s.data t.data h

/-- Go `strings.Contains` survives appending on the left. -/
theorem strContains_append_right (s t sub : String) (h : strContains t sub = true) :
    strContains (s ++ t) sub = true := by
  unfold strContains at h ⊢
  rw [strData_append]
  exact containsL_append_right sub.data s.data t.data h

/-! Section: claim theorems -/

/-- C1: when the cleaned request path begins with a parent-directory escape,
`serveMarkdown` declines (passthrough) for every file system, converter,
style sheet and raw flag; the outcome is independent of the file system (no
read is consulted), and the handler's response is exactly the static
primitive's output for that path. -/
theorem serveMarkdown_traversal_passthrough
    (fs fs2 conv : String → Option String) (css path : String) (raw : Bool)
    (h : startsDotDot (cleanedPath path) = true) :
    serveMarkdown fs conv css path raw = .passthrough ∧
    serveMarkdown fs conv css path raw = serveMarkdown fs2 conv css path raw ∧
    ∀ (lm : Bool) (who : Option Identity) (fsResp : String → String),
      (mdHandler lm who fs conv css fsResp path raw).2 = .static (fsResp path) := by
  have hm : ∀ (g : String → Option String), serveMarkdown g conv css path raw = .passthrough := by
    intro g
    unfold serveMarkdown
    split
    · rfl
    · split
      · rfl
      · simp [h]
  refine ⟨hm fs, (hm fs).trans (hm fs2).symm, ?_⟩
  intro lm who fsResp
  simp [mdHandler, hm fs]

/-- C1 witness: the concrete escaping path "/../secret.md" is declined even
when the escaped file exists and converts. -/
theorem serveMarkdown_traversal_passthrough_witness :
    startsDotDot (cleanedPath "/../secret.md") = true ∧
    serveMarkdown (fun _ => some "top") (fun c => some c) "" "/../secret.md" false
      = .passthrough :=
  ⟨by decide,
    (serveMarkdown_traversal_passthrough (fun _ => some "top") (fun _ => none)
      (fun c => some c) "" "/../secret.md" false (by decide)).1⟩

/-- C10: the traversal check is a character-level test on the cleaned path,
so a real file inside the root whose base name merely starts with ".."
(here "/..notes.md", cleaning to "..notes.md" with no traversal) is still
declined and never rendered, for every raw flag and converter. -/
theorem dotdot_basename_declined (fs conv : String → Option String)
    (css content : String) (hexists : fs "..notes.md" = some content) :
    cleanedPath "/..notes.md" = "..notes.md" ∧
    ∀ raw, serveMarkdown fs conv css "/..notes.md" raw = .passthrough := by
  refine ⟨by decide, ?_⟩
  intro raw
  unfold serveMarkdown
  split
  · rfl
  · split
    · rfl
    · simp [show startsDotDot (cleanedPath "/..notes.md") = true by decide]

/-- C10 witness: "/..notes.md" with its file present and a working
converter still falls through to passthrough. -/
theorem dotdot_basename_declined_witness :
    serveMarkdown (fun _ => some "# hi") (fun c => some c) "" "/..notes.md" false
      = .passthrough :=
  (dotdot_basename_declined (fun _ => some "# hi") (fun c => some c) "" "# hi" rfl).2 false

/-- C2 counterexample: a path with a Markdown extension and no raw flag
whose file read fails is NOT rendered as HTML, refuting "renders styled
HTML if and only if the extension indicates Markdown and the raw flag is
absent". -/
theorem render_iff_refuted :
    isMdPath "/readme.md" = true ∧
    serveMarkdown (fun _ => none) (fun c => some c) "" "/readme.md" false
      = .passthrough :=
  ⟨by decide, by decide⟩

/-- C2 amended: a non-Markdown extension or the raw flag always yields
passthrough (raw requests are served as the untouched static bytes), and
rendering happens exactly when — if and only if — the extension indicates
Markdown, the raw flag is absent, the cleaned path passes the traversal
check, the file read succeeds and the conversion succeeds; the rendered
response is then the converted HTML with the injected style sheet and the
base-name title. -/
theorem serveMarkdown_render_conditions
    (fs conv : String → Option String) (css path : String) :
    (∀ raw, (isMdPath path = false ∨ raw = true) →
        serveMarkdown fs conv css path raw = .passthrough) ∧
    (∀ raw t h c,
        serveMarkdown fs conv css path raw = .rendered t h c ↔
          (isMdPath path = true ∧ raw = false ∧
            startsDotDot (cleanedPath path) = false ∧
            (∃ content, fs (cleanedPath path) = some content ∧ conv content = some h) ∧
            t = goBase path ∧ c = css)) ∧
    (∀ (lm : Bool) (who : Option Identity) (fsResp : String → String),
        (mdHandler lm who fs conv css fsResp path true).2 = .static (fsResp path)) := by
  have hraw : ∀ (g : String → Option String), serveMarkdown g conv css path true = .passthrough := by
    intro g
    unfold serveMarkdown
    split
    · rfl
    · rfl
  refine ⟨?_, ?_, ?_⟩
  · intro raw hor
    rcases hor with hm | hq
    · unfold serveMarkdown
      rw [if_pos hm]
    · subst hq
      exact hraw fs
  · intro raw t h c
    cases hmd : isMdPath path with
    | false =>
      have hpass : serveMarkdown fs conv css path raw = .passthrough := by
        unfold serveMarkdown
        rw [if_pos hmd]
      rw [hpass]
      simp [hmd]
    | true =>
      cases raw with
      | true =>
        rw [hraw fs]
        simp
      | false =>
        cases hdd : startsDotDot (cleanedPath path) with
        | true =>
          have hpass : serveMarkdown fs conv css path false = .passthrough := by
            simp [serveMarkdown, hmd, hdd]
          rw [hpass]
          simp [hdd]
        | false =>
          cases hfs : fs (cleanedPath path) with
          | none =>
            have hpass : serveMarkdown fs conv css path false = .passthrough := by
              simp [serveMarkdown, hmd, hdd, hfs]
            rw [hpass]
            simp [hfs]
          | some content =>
            cases hcv : conv content with
            | none =>
              have hpass : serveMarkdown fs conv css path false
                  = .serverError "failed to render markdown" 500 := by
                simp [serveMarkdown, hmd, hdd, hfs, hcv]
              rw [hpass]
              simp [hfs, hcv]
            | some html =>
              have hren : serveMarkdown fs conv css path false
                  = .rendered (goBase path) html css := by
                simp [serveMarkdown, hmd, hdd, hfs, hcv]
              rw [hren]
              constructor
              · intro he
                injection he with e1 e2 e3
                exact ⟨rfl, rfl, rfl, ⟨content, rfl, by rw [hcv, e2]⟩, e1.symm, e3.symm⟩
              · rintro ⟨-, -, -, ⟨content2, hc2, hconv2⟩, ht, hc⟩
                injection hc2 with he
                subst he
                rw [hcv] at hconv2
                injection hconv2 with hh
                rw [ht, hc, hh]
  · intro lm who fsResp
    simp [mdHandler, hraw fs]

/-- C2 witness: a concrete Markdown file renders (via the backward
direction of the characterization) to the converted HTML with the style
sheet, renders only under those conditions (forward direction recovers the
read), and the same request with the raw flag passes through. -/
theorem serveMarkdown_render_conditions_witness :
    serveMarkdown (fun _ => some "# t") (fun _ => some "<p>t</p>") "css1" "/a.md" false
      = .rendered "a.md" "<p>t</p>" "css1" ∧
    serveMarkdown (fun _ => some "# t") (fun _ => some "<p>t</p>") "css1" "/a.md" true
      = .passthrough :=
  ⟨((serveMarkdown_render_conditions (fun _ => some "# t") (fun _ => some "<p>t</p>")
      "css1" "/a.md").2.1 false "a.md" "<p>t</p>" "css1").mpr
      ⟨by decide, rfl, by decide, ⟨"# t", rfl, rfl⟩, by decide, rfl⟩,
   (serveMarkdown_render_conditions (fun _ => some "# t") (fun _ => some "<p>t</p>")
      "css1" "/a.md").1 true (Or.inr rfl)⟩

/-- C5: for a Markdown request passing the traversal check, a failed read
falls through to passthrough (the static primitive produces its own
not-found response), while a failed conversion yields the 500 response
with the generic message and claims the request (the handler does not run
the static primitive). -/
theorem serveMarkdown_error_handling
    (fs conv : String → Option String) (css path : String)
    (hmd : isMdPath path = true)
    (hdd : startsDotDot (cleanedPath path) = false) :
    (fs (cleanedPath path) = none → serveMarkdown fs conv css path false = .passthrough) ∧
    (∀ content, fs (cleanedPath path) = some content → conv content = none →
        serveMarkdown fs conv css path false
          = .serverError "failed to render markdown" 500) ∧
    (∀ content (lm : Bool) (who : Option Identity) (fsResp : String → String),
        fs (cleanedPath path) = some content → conv content = none →
        (mdHandler lm who fs conv css fsResp path false).2
          = .mdError "failed to render markdown" 500) := by
  refine ⟨?_, ?_, ?_⟩
  · intro hread
    simp [serveMarkdown, hmd, hdd, hread]
  · intro content hread hconv
    simp [serveMarkdown, hmd, hdd, hread, hconv]
  · intro content lm who fsResp hread hconv
    simp [mdHandler, serveMarkdown, hmd, hdd, hread, hconv]

/-- C5 witness: with "/doc.md", an absent file passes through and a failing
converter produces the 500 error response. -/
theorem serveMarkdown_error_handling_witness :
    serveMarkdown (fun _ => none) (fun _ => none) "" "/doc.md" false = .passthrough ∧
    serveMarkdown (fun _ => some "x") (fun _ => none) "" "/doc.md" false
      = .serverError "failed to render markdown" 500 :=
  ⟨(serveMarkdown_error_handling (fun _ => none) (fun _ => none) "" "/doc.md"
      (by decide) (by decide)).1 rfl,
   (serveMarkdown_error_handling (fun _ => some "x") (fun _ => none) "" "/doc.md"
      (by decide) (by decide)).2.1 "x" rfl rfl⟩

/-- Throttle unfolding helper: feeding only auth-prompt lines (lines that
match neither the access pattern nor the whitelist but carry the auth
marker) through the tshello-variant filter follows `throttleSpec` from any
state. -/
theorem runFilter_authOnly (s : String)
    (hna : isAccessLine s.data = false)
    (hnw : isWhitelisted s = false)
    (hau : isAuthMsg s = true) :
    ∀ (ts : List Nat) (f : FilterState),
      runFilter f (ts.map fun t => (t, s)) =
        throttleSpec (if f.auth then some f.lastAuth else none) ts := by
  intro ts
  induction ts with
  | nil =>
    rintro ⟨la, fa⟩
    cases fa <;> rfl
  | cons t rest ih =>
    rintro ⟨la, fa⟩
    have hstep : runFilter ⟨la, fa⟩ ((t :: rest).map fun u => (u, s)) =
        (logWrite ⟨la, fa⟩ t s).emitted ::
          runFilter (logWrite ⟨la, fa⟩ t s).state (rest.map fun u => (u, s)) := rfl
    rw [hstep]
    cases fa with
    | false =>
      have hw : logWrite ⟨la, false⟩ t s = ⟨s.length, none, true, ⟨t, true⟩⟩ := by
        simp [logWrite, hna, hnw, hau]
      rw [hw, ih ⟨t, true⟩]
      rfl
    | true =>
      by_cases hlt : minuteNs < t - la
      · have hw : logWrite ⟨la, true⟩ t s = ⟨s.length, none, true, ⟨t, true⟩⟩ := by
          simp [logWrite, hna, hnw, hau, hlt]
        rw [hw, ih ⟨t, true⟩]
        simp [throttleSpec, hlt]
      · have hw : logWrite ⟨la, true⟩ t s = ⟨s.length, none, false, ⟨la, true⟩⟩ := by
          simp [logWrite, hna, hnw, hau, hlt]
        rw [hw, ih ⟨la, true⟩]
        simp [throttleSpec, hlt]

/-- C3 counterexample: from the fresh filter, a second auth-prompt line
arriving exactly 60 seconds after the first is suppressed by the code
(the test is strictly greater than one minute), while the claim's "at
least 60 seconds" reading would show it. -/
theorem throttle_boundary_refuted :
    runFilter filterStart [(0, authLine), (minuteNs, authLine)] = [true, false] ∧
    claimedThrottle none [0, minuteNs] = [true, true] :=
  ⟨by decide, by decide⟩

/-- C3 amended: for every sequence of auth-prompt lines, the filter shows
the first line, suppresses each later one unless STRICTLY more than 60
seconds elapsed since the last shown line, and showing resets the
remembered timestamp — exactly `throttleSpec`. -/
theorem throttle_behavior (s : String) (ts : List Nat)
    (hna : isAccessLine s.data = false)
    (hnw : isWhitelisted s = false)
    (hau : isAuthMsg s = true) :
    runFilter filterStart (ts.map fun t => (t, s)) = throttleSpec none ts := by
  have h := runFilter_authOnly s hna hnw hau ts filterStart
  simpa [filterStart] using h

/-- C3 witness: five auth-prompt lines spanning the one-minute boundary
give show, suppress, show, suppress, show. -/
theorem throttle_behavior_witness :
    runFilter filterStart
        ([0, 30000000000, 61000000000, 100000000000, 122000000000].map
          fun t => (t, authLine))
      = [true, false, true, false, true] := by
  rw [throttle_behavior authLine
    [0, 30000000000, 61000000000, 100000000000, 122000000000]
    (by decide) (by decide) (by decide)]
  decide

/-- C4 counterexample: on identity-resolution failure the markdown-variant
handler logs "? /x", a line that does not contain "unknown", refuting the
claim that the access-log line uses "unknown" in place of the identity. -/
theorem unknown_label_refuted :
    (mdHandler false none (fun _ => none) (fun _ => none) "" (fun _ => "body")
        "/x" false).1 = ["? /x"] ∧
    strContains "? /x" "unknown" = false :=
  ⟨by decide, by decide⟩

/-- C4 amended: identity-resolution failure never blocks the response and
produces exactly one access-log line — the serve.go handler's line
contains "unknown" and passes its filter's access whitelist, while the
markdown-variant handler's line is "? " followed by the path, and its
response equals the one produced for any resolved identity. -/
theorem identity_failure_logged_and_served
    (errText path : String) (fsResp : String → String)
    (fs conv : String → Option String) (css : String) (raw : Bool) (w : Identity) :
    (serveHandler false none errText fsResp path).1
      = ["access: unknown user (" ++ errText ++ ") " ++ path] ∧
    strContains ("access: unknown user (" ++ errText ++ ") " ++ path) "unknown" = true ∧
    (∀ (f : FilterState) (t : Nat),
        (serveLogWrite f t ("access: unknown user (" ++ errText ++ ") " ++ path)).emitted
          = true) ∧
    (serveHandler false none errText fsResp path).2 = fsResp path ∧
    (mdHandler false none fs conv css fsResp path raw).1 = ["? " ++ path] ∧
    (mdHandler false none fs conv css fsResp path raw).2
      = (mdHandler false (some w) fs conv css fsResp path raw).2 := by
  have hcontains : strContains ("access: unknown user (" ++ errText ++ ") " ++ path)
      "unknown" = true := by
    apply strContains_append_left
    apply strContains_append_left
    apply strContains_append_left
    decide
  have haccess : strContains ("access: unknown user (" ++ errText ++ ") " ++ path)
      "access: " = true := by
    apply strContains_append_left
    apply strContains_append_left
    apply strContains_append_left
    decide
  refine ⟨rfl, hcontains, ?_, rfl, rfl, rfl⟩
  intro f t
  simp [serveLogWrite, serveWhitelisted, haccess]

/-- C6: in Local mode, with no explicit port flag the remembered port file
(trimmed) decides the bind address, falling back to the default "8080"
when the file is absent; an explicit port flag always wins, and the bound
port value is the one written back to the state file. -/
theorem localStartup_port_logic (v s : String) (saved : Option String) :
    (localStartup none (some s)).bindAddr = ":" ++ goTrimSpace s ∧
    (localStartup none none).bindAddr = ":8080" ∧
    (localStartup (some v) saved).bindAddr = ":" ++ v ∧
    (localStartup (some v) saved).savedPort = v := by
  refine ⟨rfl, rfl, ?_, ?_⟩ <;> cases saved <;> rfl

/-- C7: every call to the tshello-variant filter's write entry point
accepts the full input length and reports no error, whether the line is
passed through, throttled or silenced. -/
theorem logWrite_full_length_no_error (f : FilterState) (t : Nat) (s : String) :
    (logWrite f t s).n = s.length ∧ (logWrite f t s).err = none := by
  unfold logWrite
  repeat' split
  all_goals exact ⟨rfl, rfl⟩

/-- Poller helper: if no observation within the fuel window reports
"Running", the loop exhausts its fuel and times out. -/
theorem pollLoop_timeout_of_none (status : Nat → Option (String × String)) :
    ∀ (fuel start : Nat),
      (∀ k, k < fuel → statusRunning (status (start + k)) = false) →
      pollLoop status start fuel = .timeout := by
  intro fuel
  induction fuel with
  | zero => intro start _; rfl
  | succ n ih =>
    intro start h
    have h0 : statusRunning (status start) = false := by
      have hx := h 0 (Nat.succ_pos n)
      simpa using hx
    have hrest : ∀ k, k < n → statusRunning (status ((start + 1) + k)) = false := by
      intro k hk
      have hx := h (k + 1) (Nat.succ_lt_succ hk)
      have e : start + (k + 1) = (start + 1) + k := by omega
      rwa [e] at hx
    unfold pollLoop
    cases hs : status start with
    | none => exact ih (start + 1) hrest
    | some pr =>
      obtain ⟨bs, dns⟩ := pr
      have hbs : ¬ (bs = "Running") := by
        rw [hs] at h0
        simpa [statusRunning] using h0
      simp only [hbs, if_false]
      exact ih (start + 1) hrest

/-- Poller helper: the first "Running" observation inside the fuel window
stops the loop with the announced URL derived from its DNS name. -/
theorem pollLoop_reaches_running (status : Nat → Option (String × String)) :
    ∀ (k fuel start : Nat), k < fuel →
      statusRunning (status (start + k)) = true →
      (∀ j, j < k → statusRunning (status (start + j)) = false) →
      pollLoop status start fuel
        = .running ("https://" ++ trimDotSuffix (dnsOf (status (start + k)))) := by
  intro k
  induction k with
  | zero =>
    intro fuel start hk hrun _
    obtain ⟨fuel2, rfl⟩ : ∃ m, fuel = m + 1 := ⟨fuel - 1, by omega⟩
    rw [Nat.add_zero] at hrun ⊢
    cases hs : status start with
    | none =>
      rw [hs] at hrun
      simp [statusRunning] at hrun
    | some pr =>
      obtain ⟨bs, dns⟩ := pr
      have hbs : bs = "Running" := by
        rw [hs] at hrun
        simpa [statusRunning] using hrun
      unfold pollLoop
      rw [hs]
      simp [hbs, dnsOf, hs]
  | succ k ih =>
    intro fuel start hk hrun hmin
    obtain ⟨fuel2, rfl⟩ : ∃ m, fuel = m + 1 := ⟨fuel - 1, by omega⟩
    have h0 : statusRunning (status start) = false := by
      have hx := hmin 0 (Nat.succ_pos k)
      simpa using hx
    have harr : start + (k + 1) = (start + 1) + k := by omega
    have hrest : ∀ j, j < k → statusRunning (status ((start + 1) + j)) = false := by
      intro j hj
      have hx := hmin (j + 1) (Nat.succ_lt_succ hj)
      have e : start + (j + 1) = (start + 1) + j := by omega
      rwa [e] at hx
    have htail : pollLoop status (start + 1) fuel2
        = .running ("https://" ++ trimDotSuffix (dnsOf (status ((start + 1) + k)))) :=
      ih fuel2 (start + 1) (by omega) (by rwa [harr] at hrun) hrest
    unfold pollLoop
    cases hs : status start with
    | none => rw [htail, ← harr]
    | some pr =>
      obtain ⟨bs, dns⟩ := pr
      have hbs : ¬ (bs = "Running") := by
        rw [hs] at h0
        simpa [statusRunning] using h0
      simp only [hbs, if_false]
      rw [htail, ← harr]

/-- C8: the Secured-mode readiness poller always reaches one of its two
terminal outcomes within the 60-second window of 500 ms polls: if some
poll inside the window is the first to observe "Running", the poller stops
and announces the URL derived from that observation's DNS name; if none
does, it stops with the timeout diagnostic, an outcome that leaves the
server process serving (the model has no terminating outcome). -/
theorem poller_terminates (status : Nat → Option (String × String)) :
    (∃ i, i < pollWindow ∧ statusRunning (status i) = true ∧
        (∀ j, j < i → statusRunning (status j) = false) ∧
        runPoll status = .running ("https://" ++ trimDotSuffix (dnsOf (status i))))
  ∨ ((∀ i, i < pollWindow → statusRunning (status i) = false) ∧
        runPoll status = .timeout) := by
  by_cases h : ∃ i, i < pollWindow ∧ statusRunning (status i) = true
  · left
    have hmargin : ∀ j, j < Nat.find h → statusRunning (status j) = false := by
      intro j hj
      have hmin := Nat.find_min h hj
      have hjw : j < pollWindow := Nat.lt_trans hj (Nat.find_spec h).1
      cases hb : statusRunning (status j) with
      | false => rfl
      | true => exact absurd ⟨hjw, hb⟩ hmin
    refine ⟨Nat.find h, (Nat.find_spec h).1, (Nat.find_spec h).2, hmargin, ?_⟩
    have hr := pollLoop_reaches_running status (Nat.find h) pollWindow 0
      (by simpa using (Nat.find_spec h).1)
      (by simpa using (Nat.find_spec h).2)
      (by
        intro j hj
        simpa using hmargin j hj)
    simpa [runPoll] using hr
  · right
    have hall : ∀ i, i < pollWindow → statusRunning (status i) = false := by
      intro i hi
      cases hb : statusRunning (status i) with
      | false => rfl
      | true => exact absurd ⟨i, hi, hb⟩ h
    refine ⟨hall, ?_⟩
    have ht := pollLoop_timeout_of_none status pollWindow 0 (by
      intro k hk
      simpa using hall k hk)
    simpa [runPoll] using ht

/-- C9 counterexample: a Local-mode markdown request renders a page whose
injected style sheet IS the custom style sheet loaded from the state
directory, refuting "only in Secured mode". -/
theorem local_css_refuted :
    (mdHandler true none (fun _ => some "# t") (fun _ => some "<h1>t</h1>")
        "custom-style" (fun _ => "") "/a.md" false).2
      = .mdPage "a.md" "<h1>t</h1>" "custom-style" := by
  decide

/-- C9 amended: the custom style sheet loaded once at startup is injected
into every rendered markdown page in BOTH modes — a rendered result always
carries exactly the loaded `customCSS`, and the handler's response does not
depend on the operating mode or on the resolved identity. -/
theorem css_mode_independent
    (fs conv : String → Option String) (css path : String) (raw : Bool)
    (t h c : String)
    (hr : serveMarkdown fs conv css path raw = .rendered t h c) :
    c = css ∧
    ∀ (lm lm2 : Bool) (who who2 : Option Identity) (fsResp : String → String),
      (mdHandler lm who fs conv css fsResp path raw).2
        = (mdHandler lm2 who2 fs conv css fsResp path raw).2 := by
  constructor
  · unfold serveMarkdown at hr
    split at hr
    · simp at hr
    · split at hr
      · simp at hr
      · split at hr
        · simp at hr
        · split at hr
          · simp at hr
          · split at hr
            · simp at hr
            · injection hr with h1 h2 h3
              exact h3.symm
  · intro lm lm2 who who2 fsResp
    rfl

/-- C9 witness: a concrete render in Local mode carries the loaded sheet,
and the Local-mode and Secured-mode responses coincide. -/
theorem css_mode_independent_witness :
    "sheet1" = "sheet1" ∧
    (mdHandler true none (fun _ => some "m") (fun _ => some "h") "sheet1"
        (fun _ => "") "/a.md" false).2
      = (mdHandler false (some ⟨"u", "d"⟩) (fun _ => some "m") (fun _ => some "h")
          "sheet1" (fun _ => "") "/a.md" false).2 :=
  ⟨(css_mode_independent (fun _ => some "m") (fun _ => some "h") "sheet1" "/a.md"
      false "a.md" "h" "sheet1" (by decide)).1.symm.trans rfl,
   (css_mode_independent (fun _ => some "m") (fun _ => some "h") "sheet1" "/a.md"
      false "a.md" "h" "sheet1" (by decide)).2 true false none (some ⟨"u", "d"⟩)
      (fun _ => "")⟩

end Serve

